import Mathlib

/-!
A verification development for the `br` backup tool (package `pkg/raw`,
file `full.go`, and the CLI layer `cmd/raw.go`).

The Go code is shallowly embedded: pure control flow becomes Lean
functions, external collaborators (PD client, lock resolver, external
storage, TiDB sessions, `time.ParseDuration`, `tablecodec.GenTablePrefix`)
become explicit function parameters, fallible calls return `Except`,
byte strings become `List Nat`, and `uint64` arithmetic is `Nat` with an
explicit `% 2 ^ 64` where overflow can occur.  The event-driven
supervision loop of `BackupRanges` is embedded over an explicit schedule
of channel/timer events.
-/

/-- Raw key bytes, as handled by the backup protocol. -/
abbrev Bytes := List Nat

/-- One produced SST file record (`backup.File` from kvproto). -/
structure File where
  name : String
  startKey : Bytes
  endKey : Bytes
  crc64Xor : Nat
  totalKvs : Nat
  totalBytes : Nat
  startVersion : Nat
  endVersion : Nat
deriving DecidableEq

/-- Modelled from the spec: the `Range` type of `pkg/raw` (its file is not
under `src/`): a half-open key range `[startKey, endKey)` together with the
files produced for keys inside it. -/
structure Range where
  startKey : Bytes
  endKey : Bytes
  files : List File
deriving DecidableEq

/-- Modelled from the spec: `meta.Timestamp` of `pkg/meta` (not under
`src/`), a physical-millisecond / logical pair of int64 components. -/
structure Timestamp where
  physical : Int
  logical : Int
deriving DecidableEq

/-- Modelled from the spec: `meta.EncodeTs` of `pkg/meta` (not under
`src/`); the spec gives the bit-exact encoding
`(physical_ms << 18) | (logical & ((1<<18)-1))` into a 64-bit word. -/
def EncodeTs (ts : Timestamp) : Nat :=
  ((ts.physical.toNat <<< 18) ||| (ts.logical.toNat &&& (2 ^ 18 - 1))) % 2 ^ 64

/-- `backup.BackupRequest` as populated by `full.go`. -/
structure BackupRequest where
  clusterId : Nat
  startKey : Bytes
  endKey : Bytes
  startVersion : Nat
  endVersion : Nat
  path : String
  rateLimit : Nat
  concurrency : Nat
deriving DecidableEq

/-- A backup schema entry (`backup.Schema`).  In Go the db and table infos
are JSON bytes; the model carries the two names (recovered in
`FastChecksum` by `json.Unmarshal`) directly, plus the checksum triple. -/
structure BackupSchema where
  dbName : String
  tableName : String
  crc64Xor : Nat
  totalKvs : Nat
  totalBytes : Nat
deriving DecidableEq

/-- The manifest (`backup.BackupMeta`). -/
structure BackupMeta where
  clusterId : Nat
  path : String
  startVersion : Nat
  endVersion : Nat
  schemas : List BackupSchema
  files : List File
deriving DecidableEq

/-- Lock information carried by `KvError.Locked` (kvproto `LockInfo`). -/
structure LockInfo where
  primaryLock : Bytes
  lockVersion : Nat
  key : Bytes
  lockTtl : Nat
deriving DecidableEq

/-- `backup.Error_KvError` payload: only the `Locked` field is inspected
by `onBackupResponse`; any other kv error has `locked = none`. -/
structure KvErrorDetail where
  locked : Option LockInfo
deriving DecidableEq

/-- `errorpb.Error` payload of `backup.Error_RegionError`: one flag per
variant pointer that `onBackupResponse` tests for non-nil. -/
structure RegionErrorDetail where
  notLeader : Bool
  epochNotMatch : Bool
  regionNotFound : Bool
  serverIsBusy : Bool
  staleCommand : Bool
  storeNotMatch : Bool
deriving DecidableEq

/-- The oneof `Detail` of `backup.Error`. -/
inductive ErrorDetail where
  | kvError (v : KvErrorDetail)
  | regionError (v : RegionErrorDetail)
  | clusterIdError
deriving DecidableEq

/-- `backup.Error`: a message plus an optional recognized detail; an
unknown variant is `detail = none` (the `default` arm in Go). -/
structure BackupError where
  msg : String
  detail : Option ErrorDetail
deriving DecidableEq

/-- `backup.BackupResponse` streamed from a storage node. -/
structure BackupResponse where
  startKey : Bytes
  endKey : Bytes
  files : List File
  error : Option BackupError
deriving DecidableEq

/-- `BackupClient.GetTS` (full.go:100-132) before the final `EncodeTs`:
`parse` stands for `time.ParseDuration` (nanoseconds on success), `p`/`l`
are the physical/logical parts from `pdClient.GetTS`, and `sp` is the
outcome of `backer.GetGCSafePoint`.  Go's `duration.Nanoseconds() /
int64(time.Millisecond)` is truncating int64 division, i.e. `Int.tdiv`. -/
def getTSCore (parse : String → Option Int) (p l : Int)
    (sp : Except String Timestamp) (timeAgo : String) :
    Except String Timestamp :=
  if timeAgo ≠ "" then
    match parse timeAgo with
    | none => .error "invalid duration"
    | some ns =>
      let t : Int := ns.tdiv 1000000
      match sp with
      | .error e => .error e
      | .ok safePoint =>
        if p - t < safePoint.physical then
          .error "given backup time exceed GCSafePoint"
        else
          .ok { physical := p - t, logical := l }
  else
    .ok { physical := p, logical := l }

/-- `BackupClient.GetTS` proper: the timestamp from `getTSCore`, encoded
with `EncodeTs` into the returned `backupTS`. -/
def GetTS (parse : String → Option Int) (p l : Int)
    (sp : Except String Timestamp) (timeAgo : String) : Except String Nat :=
  (getTSCore parse p l sp timeAgo).map EncodeTs

/-- `utils.MetaFile`, the well-known manifest name.  Modelled from the
spec: `pkg/utils` is not under `src/`; the spec fixes the name
`backupmeta`. -/
def MetaFile : String := "backupmeta"

/-- External storage as seen by `SetStorage`: only membership queries are
needed (`utils.ExternalStorage.FileExists`). -/
structure Storage where
  fileExists : String → Bool

/-- `BackupClient.SetStorage` (full.go:135-146): create the storage from
the base URL (`utils.CreateStorage`, passed as a parameter since
`pkg/utils` is external to `src/pkg/raw`), then refuse to proceed when
`backupmeta` already exists.  The model returns the storage that the Go
method assigns to `bc.storage`. -/
def SetStorage (createStorage : String → Except String Storage)
    (base : String) : Except String Storage :=
  match createStorage base with
  | .error e => .error e
  | .ok st =>
    if st.fileExists MetaFile then
      .error "backup meta exists, may be some backup files in the path already"
    else
      .ok st

/-- A table range by ids, `tableRange` of full.go:235-237. -/
structure TableRange where
  startID : Int
  endID : Int
deriving DecidableEq

/-- One partition definition (`model.PartitionDefinition`; only `ID` is
read by `buildTableRanges`). -/
structure PartitionDefinition where
  id : Int
deriving DecidableEq

/-- `model.PartitionInfo`: the list of partition definitions. -/
structure PartitionInfo where
  definitions : List PartitionDefinition
deriving DecidableEq

/-- `model.TableInfo` as read by the planner: the table id and the result
of `GetPartitionInfo` (`none` when the table is not partitioned). -/
structure TableInfo where
  id : Int
  partition : Option PartitionInfo
deriving DecidableEq

/-- `model.DBInfo` as read by the planner: `nameL` is `Name.L`, the
lowercase database name, plus the database's tables. -/
structure DBInfo where
  nameL : String
  tables : List TableInfo
deriving DecidableEq

/-- `tableRange.Range` (full.go:239-246): convert an id range to a key
range via the table-key encoding.  `genTablePfx` stands for the external
`tablecodec.GenTablePrefix`. -/
def TableRange.toRange (genTablePfx : Int → Bytes) (tr : TableRange) : Range :=
  { startKey := genTablePfx tr.startID
    endKey := genTablePfx tr.endID
    files := [] }

/-- `buildTableRanges` (full.go:248-265): a single `[id, id+1)` range for
an unpartitioned table, one `[def.ID, def.ID+1)` range per partition
definition otherwise. -/
def buildTableRanges (tbl : TableInfo) : List TableRange :=
  match tbl.partition with
  | none => [{ startID := tbl.id, endID := tbl.id + 1 }]
  | some pis => pis.definitions.map fun def0 => { startID := def0.id, endID := def0.id + 1 }

/-- The `SystemDatabases` array of `PreBackupAllTableRanges`
(full.go:269-273). -/
def SystemDatabases : List String :=
  ["information_schema", "performance_schema", "mysql"]

/-- The inner loop of full.go:285-289: does any name of the list equal
`name` (Go compares `sysDbName == dbInfo.Name.L`)? -/
def nameListHas : List String → String → Bool
  | [], _ => false
  | s :: rest, name => if s == name then true else nameListHas rest name

/-- The per-database table loop of `PreBackupAllTableRanges`
(full.go:295-325), restricted to its range output: every table's
`buildTableRanges`, converted through `tableRange.Range` and appended in
order. -/
def rangesOfTables (genTablePfx : Int → Bytes) : List TableInfo → List Range
  | [] => []
  | tbl :: rest =>
    (buildTableRanges tbl).map (TableRange.toRange genTablePfx)
      ++ rangesOfTables genTablePfx rest

/-- `BackupClient.PreBackupAllTableRanges` (full.go:268-328), restricted
to its range output: skip a database when its lowercase name occurs in
`SystemDatabases` (the labelled `continue LoadDb`), otherwise accumulate
the ranges of all its tables.  The external side effects of the loop body
(JSON marshalling, auto-id pinning, checksum registration) do not affect
which ranges are emitted. -/
def PreBackupAllTableRanges (genTablePfx : Int → Bytes) :
    List DBInfo → List Range
  | [] => []
  | db :: rest =>
    if nameListHas SystemDatabases db.nameL then
      PreBackupAllTableRanges genTablePfx rest
    else
      rangesOfTables genTablePfx db.tables
        ++ PreBackupAllTableRanges genTablePfx rest

/-- One scheduling event observed by the supervision loop of
`BackupRanges` (full.go:365-387): a 30-second timer tick, a non-nil error
delivered on `errCh` by the range goroutine, or the closing of `errCh`
after the last range finished. -/
inductive GCEvent where
  | tick
  | errMsg (e : String)
  | errClosed
deriving DecidableEq

/-- The supervision loop of `BackupRanges` (full.go:360-388).  Each
iteration first runs `backer.CheckGCSafepoint`; the `checks` list is the
sequence of its outcomes (`none` = check passed, `some e` = check
returned error `e`, which the code only logs).  If `finished` is already
set the iteration returns that outcome; otherwise the `select` consumes
the next event: a tick loops, a non-nil `errCh` error is returned, and a
closed `errCh` sets `finished` so that one more check decides the
verdict.  The result is `none` when the supplied trace is too short to
terminate the loop. -/
def backupRangesLoop :
    List (Option String) → List GCEvent → Bool → Option (Option String)
  | [], _, _ => none
  | check :: checks, events, finished =>
    if finished then
      some check
    else
      match events with
      | [] => none
      | GCEvent.tick :: es => backupRangesLoop checks es finished
      | GCEvent.errMsg e :: _ => some (some e)
      | GCEvent.errClosed :: es => backupRangesLoop checks es true

/-- The push-down `BackupRequest` built by `backupRange`
(full.go:400-424): note `rateLimit = rateMBs * 1024 * 1024` in bytes per
second (uint64). -/
def backupRangeRequest (clusterId : Nat) (startKey endKey : Bytes)
    (path : String) (backupTS rateMBs : Nat) (concurrency : Nat) :
    BackupRequest :=
  { clusterId := clusterId
    startKey := startKey
    endKey := endKey
    startVersion := backupTS
    endVersion := backupTS
    path := path
    rateLimit := rateMBs * 1024 * 1024 % 2 ^ 64
    concurrency := concurrency }

/-- The manifest update performed at the end of `backupRange`
(full.go:442-452): pin `StartVersion`/`EndVersion` to `backupTS` and
append the files drained from the range tree in ascending order. -/
def backupRangeMetaUpdate (m : BackupMeta) (backupTS : Nat)
    (rangeFiles : List File) : BackupMeta :=
  { m with
    startVersion := backupTS
    endVersion := backupTS
    files := m.files ++ rangeFiles }

/-- The fine-grained per-region `BackupRequest` built by
`handleFineGrained` (full.go:661-670). -/
def handleFineGrainedRequest (clusterId : Nat) (rg : Range)
    (backupTS : Nat) (path : String) (rateLimit : Nat)
    (concurrency : Nat) : BackupRequest :=
  { clusterId := clusterId
    startKey := rg.startKey
    endKey := rg.endKey
    startVersion := backupTS
    endVersion := backupTS
    path := path
    rateLimit := rateLimit
    concurrency := concurrency }

/-- `onBackupResponse` (full.go:587-645).  `resolveLocks` stands for
`lockResolver.ResolveLocks` on the single suspected lock; on success it
returns `msBeforeExpired` (an int64).  The result mirrors the Go triple
`(*BackupResponse, int, error)`: the committed response (if any), the
backoff hint in milliseconds, and the fatal error (if any). -/
def onBackupResponse (resolveLocks : LockInfo → Except String Int)
    (resp : BackupResponse) :
    Option BackupResponse × Int × Option String :=
  match resp.error with
  | none => (some resp, 0, none)
  | some err =>
    match err.detail with
    | some (ErrorDetail.kvError v) =>
      match v.locked with
      | some lockErr =>
        match resolveLocks lockErr with
        | .error e1 => (none, 0, some e1)
        | .ok msBeforeExpired =>
          let backoffMs : Int := if msBeforeExpired > 0 then msBeforeExpired else 0
          (none, backoffMs, none)
      | none => (none, 0, some "onBackupResponse error")
    | some (ErrorDetail.regionError regionErr) =>
      if !(regionErr.epochNotMatch || regionErr.notLeader ||
           regionErr.regionNotFound || regionErr.serverIsBusy ||
           regionErr.staleCommand || regionErr.storeNotMatch) then
        (none, 0, some "onBackupResponse error")
      else
        (none, 1000, none)
    | some ErrorDetail.clusterIdError => (none, 0, some err.msg)
    | none => (none, 0, some err.msg)

/-- The response callback loop of `handleFineGrained` (full.go:672-692):
`SendBackup` invokes the callback once per streamed response; a
classifier error stops the stream and is returned, a committed response
is forwarded to `respCh`, and the running maximum of backoff hints is
kept.  The result is the list of forwarded responses, the final maximum,
and the error (if any). -/
def handleFineGrainedLoop (resolveLocks : LockInfo → Except String Int) :
    List BackupResponse → Int → List BackupResponse × Int × Option String
  | [], mx => ([], mx, none)
  | resp :: rest, mx =>
    let res := onBackupResponse resolveLocks resp
    match res.2.2 with
    | some e => ([], mx, some e)
    | none =>
      let mx1 := if mx < res.2.1 then res.2.1 else mx
      match res.1 with
      | some r =>
        let tail := handleFineGrainedLoop resolveLocks rest mx1
        (r :: tail.1, tail.2.1, tail.2.2)
      | none => handleFineGrainedLoop resolveLocks rest mx1

/-- The guard of the fatal branch in `fineGrainedBackup`'s select loop
(full.go:557-560): it fires on a received response with non-nil
`Error`. -/
def fineGrainedFatalGuard (resp : BackupResponse) : Bool :=
  resp.error.isSome

/-- One step of the `FastChecksum` aggregation loop (full.go:729-733):
xor of `Crc64Xor`, wrapping uint64 sums of `TotalKvs` and `TotalBytes`. -/
def checksumFoldStep (acc : Nat × Nat × Nat) (f : File) : Nat × Nat × Nat :=
  (acc.1 ^^^ f.crc64Xor, (acc.2.1 + f.totalKvs) % 2 ^ 64,
    (acc.2.2 + f.totalBytes) % 2 ^ 64)

/-- The `(checksum, totalKvs, totalBytes)` triple computed by
`FastChecksum` over one table's files. -/
def checksumTriple (files : List File) : Nat × Nat × Nat :=
  files.foldl checksumFoldStep (0, 0, 0)

/-- `BackupClient.FastChecksum` (full.go:701-752).  `tableFiles` stands
for the table grouping `utils.LoadBackupTables` + `GetTable` (key-prefix
containment; `pkg/utils` is not under `src/`), giving each schema's
files by database and table name.  The loop returns `false` at the first
schema whose recorded triple differs from the computed one, and `true`
after all schemas pass. -/
def FastChecksum (tableFiles : String → String → List File) :
    List BackupSchema → Bool
  | [] => true
  | s :: rest =>
    let t := checksumTriple (tableFiles s.dbName s.tableName)
    if s.crc64Xor = t.1 ∧ s.totalKvs = t.2.1 ∧ s.totalBytes = t.2.2 then
      FastChecksum tableFiles rest
    else
      false

/-- Opaque stand-in for `meta.Backer` in the CLI model. -/
structure Backer where
  unit : Unit
deriving DecidableEq

/-- Opaque stand-in for `raw.BackupClient` in the CLI model. -/
structure BRClient where
  unit : Unit
deriving DecidableEq

/-- The `RunE` handler of the `backup full` command (cmd/raw.go:54-144),
up to the storage-URL validation; the remainder of the pipeline is
abstracted as `restOfBackup`.  Each fallible step is a parameter.  Note
full.go's caller behaviour at cmd/raw.go:59-62: when `NewBackupClient`
fails, the handler returns `nil` — the error is swallowed. -/
def newFullBackupRunE (getDefaultBacker : Except String Backer)
    (newBackupClient : Backer → Except String BRClient)
    (getStorageFlag : Except String String)
    (restOfBackup : BRClient → String → Option String) : Option String :=
  match getDefaultBacker with
  | .error e => some e
  | .ok backer =>
    match newBackupClient backer with
    | .error _ => none
    | .ok client =>
      match getStorageFlag with
      | .error e => some e
      | .ok u =>
        if u = "" then some "empty backup store is not allowed"
        else restOfBackup client u

/-- Go's `time.ParseDuration` restricted to the single literal `"1h"`
(3600000000000 ns), used to instantiate the `parse` parameter of `GetTS`
on concrete inputs. -/
def parseOneHour : String → Option Int :=
  fun s => if s = "1h" then some 3600000000000 else none

/-- C10: with an empty `timeago` string, `GetTS` returns the encoded
current PD timestamp and never consults the GC safepoint: the result is
`ok` for every safepoint outcome `sp`, including a failed lookup
(`sp = .error e`), and no safepoint validation of `backupTS` occurs. -/
theorem getTS_empty_timeago (parse : String → Option Int) (p l : Int)
    (sp : Except String Timestamp) :
    getTSCore parse p l sp "" = .ok { physical := p, logical := l } ∧
    GetTS parse p l sp "" = .ok (EncodeTs { physical := p, logical := l }) :=
  ⟨rfl, rfl⟩

/-- C3 (counterexample): `GetTS` accepts a `timeago` for which the
resulting snapshot physical timestamp is exactly equal to the GC
safepoint physical timestamp: with current physical time 5000000 ms,
`timeago = "1h"` (3600000 ms) and safepoint physical 1400000 ms, the
call succeeds and the returned timestamp has `Physical = 1400000`, which
is not strictly greater than `gcSafePoint.Physical = 1400000`. -/
theorem getTS_boundary_counterexample :
    getTSCore parseOneHour 5000000 7
        (.ok { physical := 1400000, logical := 3 }) "1h"
      = .ok { physical := 1400000, logical := 7 } ∧
    ¬ ((1400000 : Int) > 1400000) :=
  ⟨rfl, by omega⟩

/-- C3 (amended): for a non-empty `timeago` that parses to `ns`
nanoseconds, `GetTS` subtracts `ns / 1e6` milliseconds from the current
PD physical timestamp and errors exactly when the result falls strictly
below the GC safepoint physical; on success the returned timestamp
satisfies `backupTS.Physical ≥ gcSafePoint.Physical` (equality is
allowed). -/
theorem getTSCore_safepoint_check (parse : String → Option Int) (p l : Int)
    (safePoint : Timestamp) (timeAgo : String) (ns : Int)
    (hta : timeAgo ≠ "") (hparse : parse timeAgo = some ns) :
    (p - ns.tdiv 1000000 < safePoint.physical →
      getTSCore parse p l (.ok safePoint) timeAgo =
        .error "given backup time exceed GCSafePoint") ∧
    (safePoint.physical ≤ p - ns.tdiv 1000000 →
      getTSCore parse p l (.ok safePoint) timeAgo =
        .ok { physical := p - ns.tdiv 1000000, logical := l } ∧
      safePoint.physical ≤ p - ns.tdiv 1000000) := by
  constructor
  · intro h
    simp [getTSCore, hta, hparse, h]
  · intro h
    have h2 : ¬ (p - ns.tdiv 1000000 < safePoint.physical) := not_lt.mpr h
    exact ⟨by simp [getTSCore, hta, hparse, h2], h⟩

/-- C3 (witness): the amended theorem applied at current physical time
5000000 ms, `timeago = "1h"` and safepoint physical 1000000 ms. -/
theorem getTSCore_safepoint_check_witness :
    getTSCore parseOneHour 5000000 7
        (.ok { physical := 1000000, logical := 3 }) "1h"
      = .ok { physical := 5000000 - Int.tdiv 3600000000000 1000000,
              logical := 7 } :=
  ((getTSCore_safepoint_check parseOneHour 5000000 7
      { physical := 1000000, logical := 3 } "1h" 3600000000000
      (by decide) rfl).2 (by decide)).1

/-- C7: when the storage destination can be created, `SetStorage` returns
an error when the destination already contains a file named `backupmeta`
(so the job refuses to start), and succeeds otherwise. -/
theorem setStorage_meta_guard (createStorage : String → Except String Storage)
    (base : String) (st : Storage) (h : createStorage base = .ok st) :
    (st.fileExists MetaFile = true →
      SetStorage createStorage base =
        .error "backup meta exists, may be some backup files in the path already") ∧
    (st.fileExists MetaFile = false →
      SetStorage createStorage base = .ok st) := by
  constructor <;> intro hf <;> simp [SetStorage, h, hf]

/-- C7 (witness): `SetStorage` on a destination without `backupmeta`
succeeds. -/
theorem setStorage_meta_guard_witness :
    SetStorage (fun _ => .ok { fileExists := fun _ => false }) "local://backup"
      = .ok { fileExists := fun _ => false } :=
  (setStorage_meta_guard (fun _ => .ok { fileExists := fun _ => false })
    "local://backup" { fileExists := fun _ => false } rfl).2 rfl

/-- C8: in the `backup full` CLI handler, a `NewBackupClient` failure is
not propagated: with a successful backer, a failing `NewBackupClient`
and a non-empty storage URL, the handler returns `none` (a nil error,
hence exit code 0) instead of the error, and the rest of the pipeline
never runs.  This contradicts the claim (and the spec's stated intent)
that the error is returned as a non-nil value. -/
theorem fullBackup_swallows_client_error :
    newFullBackupRunE (.ok { unit := () })
      (fun _ => .error "pd request failed")
      (.ok "local:///tmp/backup")
      (fun _ _ => some "rest of the pipeline ran") = none :=
  rfl

/-- C1 (counterexample): a run of the `BackupRanges` supervision loop in
which the first periodic GC-safepoint check fails (returns an error) yet
the job is not aborted: the loop keeps running, and after the range
pipeline finishes with a passing final check the loop returns `some
none`, i.e. success.  The claim that a failed periodic check aborts the
job with an error is therefore false. -/
theorem backupRanges_periodic_failure_ignored :
    backupRangesLoop [some "backup ts exceed GC safepoint", none, none]
      [GCEvent.tick, GCEvent.errClosed] false = some none ∧
    (some "backup ts exceed GC safepoint" : Option String) ≠ none :=
  ⟨rfl, by simp⟩

/-- C1 (amended): the supervision loop runs one GC-safepoint check per
iteration (every 30 s tick), but a failed periodic check is only logged
and never aborts the job; when the range pipeline finishes (`errCh`
closes after `n` ticks), exactly one more check is performed and its
verdict — whatever it is — is the value the loop returns, independently
of the outcomes `cs` of all earlier periodic checks. -/
theorem backupRangesLoop_final_verdict (cs : List (Option String))
    (c : Option String) (rest : List (Option String)) (n : Nat)
    (h : cs.length = n + 1) :
    backupRangesLoop (cs ++ c :: rest)
      (List.replicate n GCEvent.tick ++ [GCEvent.errClosed]) false = some c := by
  induction n generalizing cs with
  | zero =>
    cases cs with
    | nil => simp at h
    | cons c0 cs' =>
      cases cs' with
      | nil => rfl
      | cons c1 cs'' => simp at h
  | succ n ih =>
    cases cs with
    | nil => simp at h
    | cons c0 cs' =>
      have h' : cs'.length = n + 1 := by simpa using h
      exact ih cs' h'

/-- C1 (witness): the amended theorem at a concrete trace: one tick with
a passing check, then the pipeline finishes and the final check fails;
the loop returns exactly that failure. -/
theorem backupRangesLoop_final_verdict_witness :
    backupRangesLoop
      ([none, none] ++ some "backup ts exceed GC safepoint" :: [])
      (List.replicate 1 GCEvent.tick ++ [GCEvent.errClosed]) false
      = some (some "backup ts exceed GC safepoint") :=
  backupRangesLoop_final_verdict [none, none]
    (some "backup ts exceed GC safepoint") [] 1 rfl

/-- C6: every `BackupRequest` built by the client — the push-down request
of `backupRange` and the per-region request of `handleFineGrained` —
carries `StartVersion = EndVersion = backupTS`, and the manifest update
of `backupRange` records `StartVersion = EndVersion = backupTS`. -/
theorem backup_requests_point_in_time (clusterId : Nat) (sk ek : Bytes)
    (path : String) (backupTS rateMBs concurrency rateLimit : Nat)
    (rg : Range) (m : BackupMeta) (fs : List File) :
    (backupRangeRequest clusterId sk ek path backupTS rateMBs
        concurrency).startVersion = backupTS ∧
    (backupRangeRequest clusterId sk ek path backupTS rateMBs
        concurrency).endVersion = backupTS ∧
    (handleFineGrainedRequest clusterId rg backupTS path rateLimit
        concurrency).startVersion = backupTS ∧
    (handleFineGrainedRequest clusterId rg backupTS path rateLimit
        concurrency).endVersion = backupTS ∧
    (backupRangeMetaUpdate m backupTS fs).startVersion = backupTS ∧
    (backupRangeMetaUpdate m backupTS fs).endVersion = backupTS :=
  ⟨rfl, rfl, rfl, rfl, rfl, rfl⟩

/-- C2: `onBackupResponse` classifies every response as the claim lists:
nil error commits with backoff 0; `KvError.Locked` resolves the lock and
returns `msBeforeExpired` as the backoff hint with no error; a
`RegionError` with one of the six retryable variants set returns no
response and a 1000 ms hint; any other `RegionError`, any other
`KvError`, `ClusterIdError` and unknown variants return no response and
a non-nil (fatal) error. -/
theorem onBackupResponse_classification
    (resolveLocks : LockInfo → Except String Int) (resp : BackupResponse) :
    (resp.error = none →
      onBackupResponse resolveLocks resp = (some resp, 0, none)) ∧
    (∀ err lockErr ms, resp.error = some err →
      err.detail = some (ErrorDetail.kvError { locked := some lockErr }) →
      resolveLocks lockErr = .ok ms → 0 ≤ ms →
      onBackupResponse resolveLocks resp = (none, ms, none)) ∧
    (∀ err re, resp.error = some err →
      err.detail = some (ErrorDetail.regionError re) →
      (re.epochNotMatch || re.notLeader || re.regionNotFound ||
        re.serverIsBusy || re.staleCommand || re.storeNotMatch) = true →
      onBackupResponse resolveLocks resp = (none, 1000, none)) ∧
    (∀ err re, resp.error = some err →
      err.detail = some (ErrorDetail.regionError re) →
      (re.epochNotMatch || re.notLeader || re.regionNotFound ||
        re.serverIsBusy || re.staleCommand || re.storeNotMatch) = false →
      (onBackupResponse resolveLocks resp).1 = none ∧
      (onBackupResponse resolveLocks resp).2.2 ≠ none) ∧
    (∀ err, resp.error = some err →
      err.detail = some (ErrorDetail.kvError { locked := none }) →
      (onBackupResponse resolveLocks resp).1 = none ∧
      (onBackupResponse resolveLocks resp).2.2 ≠ none) ∧
    (∀ err, resp.error = some err →
      err.detail = some ErrorDetail.clusterIdError →
      (onBackupResponse resolveLocks resp).1 = none ∧
      (onBackupResponse resolveLocks resp).2.2 ≠ none) ∧
    (∀ err, resp.error = some err → err.detail = none →
      (onBackupResponse resolveLocks resp).1 = none ∧
      (onBackupResponse resolveLocks resp).2.2 ≠ none) := by
  refine ⟨?_, ?_, ?_, ?_, ?_, ?_, ?_⟩
  · intro h
    simp [onBackupResponse, h]
  · intro err lockErr ms h1 h2 h3 h4
    simp only [onBackupResponse, h1, h2, h3]
    have : (if ms > 0 then ms else 0) = ms := by omega
    rw [this]
  · intro err re h1 h2 h3
    simp [onBackupResponse, h1, h2, h3]
  · intro err re h1 h2 h3
    simp [onBackupResponse, h1, h2, h3]
  · intro err h1 h2
    simp [onBackupResponse, h1, h2]
  · intro err h1 h2
    simp [onBackupResponse, h1, h2]
  · intro err h1 h2
    simp [onBackupResponse, h1, h2]

/-- C2 (witness): the classification applied to a concrete response with
nil error: it is committed with backoff hint 0 and no error. -/
theorem onBackupResponse_classification_witness :
    onBackupResponse (fun _ => Except.ok 0)
        { startKey := [], endKey := [], files := [], error := none }
      = (some { startKey := [], endKey := [], files := [], error := none },
          0, none) :=
  (onBackupResponse_classification (fun _ => Except.ok 0)
    { startKey := [], endKey := [], files := [], error := none }).1 rfl

/-- Helper: the response component of `onBackupResponse` is either `none`
or the incoming response itself, the latter only when its `Error` is
nil. -/
theorem onBackupResponse_commit_shape
    (resolveLocks : LockInfo → Except String Int) (resp : BackupResponse) :
    (onBackupResponse resolveLocks resp).1 = none ∨
    ((onBackupResponse resolveLocks resp).1 = some resp ∧
      resp.error = none) := by
  cases he : resp.error with
  | none => exact Or.inr ⟨by simp [onBackupResponse, he], rfl⟩
  | some err =>
    refine Or.inl ?_
    cases hd : err.detail with
    | none => simp [onBackupResponse, he, hd]
    | some d =>
      cases d with
      | kvError v =>
        cases hv : v.locked with
        | none => simp [onBackupResponse, he, hd, hv]
        | some lk =>
          cases hres : resolveLocks lk with
          | error e => simp [onBackupResponse, he, hd, hv, hres]
          | ok ms => simp [onBackupResponse, he, hd, hv, hres]
      | regionError re =>
        simp only [onBackupResponse, he, hd]
        split <;> simp
      | clusterIdError => simp [onBackupResponse, he, hd]

/-- C9: every response that `handleFineGrained` forwards to the response
channel has nil `Error`, so the fatal branch of `fineGrainedBackup`'s
select loop (which fires on a received response with non-nil `Error`)
never fires on a forwarded response. -/
theorem fineGrained_forwarded_no_error
    (resolveLocks : LockInfo → Except String Int)
    (resps : List BackupResponse) (mx : Int) (r : BackupResponse)
    (hr : r ∈ (handleFineGrainedLoop resolveLocks resps mx).1) :
    fineGrainedFatalGuard r = false := by
  induction resps generalizing mx with
  | nil => simp [handleFineGrainedLoop] at hr
  | cons resp rest ih =>
    cases h22 : (onBackupResponse resolveLocks resp).2.2 with
    | some e =>
      simp [handleFineGrainedLoop, h22] at hr
    | none =>
      rcases onBackupResponse_commit_shape resolveLocks resp with h1 | ⟨h1, herr⟩
      · simp only [handleFineGrainedLoop, h22, h1] at hr
        exact ih _ hr
      · simp only [handleFineGrainedLoop, h22, h1] at hr
        rcases List.mem_cons.mp hr with hrr | hrr
        · subst hrr
          simp [fineGrainedFatalGuard, herr]
        · exact ih _ hrr

/-- C9 (witness): a concrete forwarded response (nil error, forwarded by
the loop on a one-response stream) does not trip the fatal guard. -/
theorem fineGrained_forwarded_no_error_witness :
    fineGrainedFatalGuard
      { startKey := [], endKey := [], files := [], error := none } = false :=
  fineGrained_forwarded_no_error (fun _ => Except.ok 1)
    [{ startKey := [], endKey := [], files := [], error := none }] 0
    { startKey := [], endKey := [], files := [], error := none }
    (by decide)

/-- C4: `FastChecksum` returns `true` exactly when, for every schema
recorded in the manifest, the xor of `Crc64Xor` and the (uint64) sums of
`TotalKvs` and `TotalBytes` over that table's files equal the triple
recorded in the schema; in particular it returns `false` whenever any
table's computed triple disagrees. -/
theorem fastChecksum_iff (tableFiles : String → String → List File)
    (schemas : List BackupSchema) :
    FastChecksum tableFiles schemas = true ↔
      ∀ s ∈ schemas,
        s.crc64Xor = (checksumTriple (tableFiles s.dbName s.tableName)).1 ∧
        s.totalKvs = (checksumTriple (tableFiles s.dbName s.tableName)).2.1 ∧
        s.totalBytes = (checksumTriple (tableFiles s.dbName s.tableName)).2.2 := by
  induction schemas with
  | nil => simp [FastChecksum]
  | cons s rest ih =>
    simp only [FastChecksum]
    split
    next hc =>
      rw [ih]
      constructor
      · intro hall x hx
        rcases List.mem_cons.mp hx with hxx | hxx
        · subst hxx; exact hc
        · exact hall x hxx
      · intro hall x hx
        exact hall x (List.mem_cons_of_mem s hx)
    next hc =>
      constructor
      · intro hfalse
        exact absurd hfalse (by simp)
      · intro hall
        exact absurd (hall s (List.mem_cons_self s rest)) hc

/-- C4 (witness): the characterization applied to a one-schema manifest
whose single file has a matching checksum triple; the verifier returns
`true`. -/
theorem fastChecksum_iff_witness :
    FastChecksum
      (fun _ _ =>
        [{ name := "f1", startKey := [], endKey := [], crc64Xor := 17,
           totalKvs := 10, totalBytes := 100, startVersion := 1,
           endVersion := 1 }])
      [{ dbName := "db", tableName := "t", crc64Xor := 17, totalKvs := 10,
         totalBytes := 100 }] = true :=
  (fastChecksum_iff
    (fun _ _ =>
      [{ name := "f1", startKey := [], endKey := [], crc64Xor := 17,
         totalKvs := 10, totalBytes := 100, startVersion := 1,
         endVersion := 1 }])
    [{ dbName := "db", tableName := "t", crc64Xor := 17, totalKvs := 10,
       totalBytes := 100 }]).mpr (by decide)

/-- Helper: the inner system-database scan over the literal list of
`PreBackupAllTableRanges` equals the three-way name comparison. -/
theorem nameListHas_system (name : String) :
    nameListHas SystemDatabases name =
      (name == "information_schema" || name == "performance_schema" ||
        name == "mysql") := by
  by_cases h1 : name = "information_schema"
  · subst h1; decide
  · by_cases h2 : name = "performance_schema"
    · subst h2; decide
    · by_cases h3 : name = "mysql"
      · subst h3; decide
      · have e1 : ("information_schema" == name) = false :=
          beq_eq_false_iff_ne.mpr fun h => h1 h.symm
        have e2 : ("performance_schema" == name) = false :=
          beq_eq_false_iff_ne.mpr fun h => h2 h.symm
        have e3 : ("mysql" == name) = false :=
          beq_eq_false_iff_ne.mpr fun h => h3 h.symm
        have f1 : (name == "information_schema") = false :=
          beq_eq_false_iff_ne.mpr h1
        have f2 : (name == "performance_schema") = false :=
          beq_eq_false_iff_ne.mpr h2
        have f3 : (name == "mysql") = false :=
          beq_eq_false_iff_ne.mpr h3
        simp [nameListHas, SystemDatabases, e1, e2, e3, f1, f2, f3]

/-- Helper: the per-database table loop flattens to a flatMap of the
per-table range construction. -/
theorem rangesOfTables_eq (genTablePfx : Int → Bytes)
    (ts : List TableInfo) :
    rangesOfTables genTablePfx ts = ts.flatMap fun tbl =>
      match tbl.partition with
      | none => [{ startKey := genTablePfx tbl.id,
                   endKey := genTablePfx (tbl.id + 1), files := [] }]
      | some pis => pis.definitions.map fun def0 =>
          { startKey := genTablePfx def0.id,
            endKey := genTablePfx (def0.id + 1), files := [] } := by
  induction ts with
  | nil => rfl
  | cons t rest ih =>
    rw [rangesOfTables, ih, List.flatMap_cons]
    congr 1
    cases hp : t.partition with
    | none => simp [buildTableRanges, hp, TableRange.toRange]
    | some pis =>
      simp [buildTableRanges, hp, TableRange.toRange, List.map_map,
        Function.comp]

/-- C5: `PreBackupAllTableRanges` skips exactly the databases whose
lowercase name is `information_schema`, `performance_schema` or `mysql`,
and for every table of every remaining database emits the single range
`[tablePfx(id), tablePfx(id+1))` when the table is not partitioned, or
one such range per partition definition when it is. -/
theorem preBackupAllTableRanges_spec (genTablePfx : Int → Bytes)
    (dbInfos : List DBInfo) :
    PreBackupAllTableRanges genTablePfx dbInfos =
      (dbInfos.filter fun db =>
          !(db.nameL == "information_schema" ||
            db.nameL == "performance_schema" || db.nameL == "mysql")).flatMap
        fun db => db.tables.flatMap fun tbl =>
          match tbl.partition with
          | none => [{ startKey := genTablePfx tbl.id,
                       endKey := genTablePfx (tbl.id + 1), files := [] }]
          | some pis => pis.definitions.map fun def0 =>
              { startKey := genTablePfx def0.id,
                endKey := genTablePfx (def0.id + 1), files := [] } := by
  have base : ∀ dbs : List DBInfo, PreBackupAllTableRanges genTablePfx dbs =
      (dbs.filter fun db => !nameListHas SystemDatabases db.nameL).flatMap
        fun db => rangesOfTables genTablePfx db.tables := by
    intro dbs
    induction dbs with
    | nil => rfl
    | cons db rest2 ih =>
      rw [PreBackupAllTableRanges]
      cases hs : nameListHas SystemDatabases db.nameL with
      | true => simp [hs, ih, List.filter_cons]
      | false => simp [hs, ih, List.filter_cons]
  rw [base dbInfos]
  have hpred : ∀ a ∈ dbInfos,
      (!nameListHas SystemDatabases a.nameL) =
      (!(a.nameL == "information_schema" ||
         a.nameL == "performance_schema" || a.nameL == "mysql")) :=
    fun a _ => by rw [nameListHas_system]
  rw [List.filter_congr hpred]
  simp only [rangesOfTables_eq]
